/-
Verification of the CSV-to-network conversion and S-parameter
extraction/scaling pipeline of the antenna S-parameter analyzer
(src/app.py), as a shallow embedding in Lean 4.

Numeric values are modelled as exact rationals.  Strings written to the
synthetic network file are modelled with Lean strings; the trailing
newline that terminates each written line is left implicit (lines are
kept as list elements).  Decimal formatting of a rational to six
places rounds half away from the floor midpoint; no statement below
depends on a formatting tie.
-/
import Mathlib

namespace AntennaApp

/-- Scale mode offered by both radio buttons of app.py
(`"Linear"` / `"dB"`). -/
inductive Scale where
  | linear
  | dB
deriving DecidableEq

/-- Tabular dataset produced by `pd.read_csv`: ordered column names plus
rows of rational values (app.py line 25). -/
structure DataFrame where
  cols : List String
  rows : List (List ℚ)
deriving DecidableEq

/-- Error raised by pandas positional indexing (`df.columns[0]` on an
empty column list raises `IndexError`, app.py line 26). -/
inductive PandasErr where
  | indexError
deriving DecidableEq

/-- Column split of app.py lines 26-27: `x_col = df.columns[0]`,
`y_cols = df.columns[1:]`.  With no columns, `df.columns[0]` raises
`IndexError`; otherwise the head becomes the x-axis and the tail the
selectable parameter labels, in file order.  No other validation is
performed by the source. -/
def interpretColumns (cols : List String) : Except PandasErr (String × List String) :=
  match cols with
  | [] => Except.error PandasErr.indexError
  | x :: rest => Except.ok (x, rest)

/-- Values of the named column, as pandas `df[name]` returns them for a
name taken from `df.columns` (app.py line 43 / 49). -/
def DataFrame.colVals (df : DataFrame) (name : String) : List ℚ :=
  df.rows.map (fun r => r.getD (df.cols.indexOf name) 0)

/-- The y-axis label chosen at app.py lines 52-54, which depends on the
scale option. -/
def csvYAxisLabel (scale : Scale) : String :=
  if scale = Scale.dB then "|S| (dB)" else "|S| (linear)"

/-- The chart request built by the CSV branch (app.py lines 42-57): the
plotted traces and the y-axis label.  The source computes
`plot_df = 20*np.log10(df[selected_params])` at line 45 but then calls
`px.line(df, x=x_col, y=selected_params)` at lines 46-49 with the
ORIGINAL frame `df`, so the plotted y-values are the raw column values
for either scale option; only the axis label depends on the scale. -/
def csvChart (df : DataFrame) (scale : Scale) (selected : List String) :
    List (String × List ℚ) × String :=
  (selected.map (fun p => (p, df.colVals p)), csvYAxisLabel scale)

/-- Headwise equality of the first character list with the front of the
second one. -/
def frontEq : List Char → List Char → Bool
  | [], _ => true
  | _ :: _, [] => false
  | a :: as, b :: bs => a == b && frontEq as bs

/-- Whether the upload takes the CSV branch: app.py line 24 tests
`filename.lower().endswith(".csv")` with `filename = uploaded_file.name`.
Lowercasing is modelled per character (ASCII, which covers the
extension characters the test inspects) and the suffix test compares
the reversed character lists. -/
def isCsv (name : String) : Bool :=
  frontEq (".csv".toList.reverse) ((name.toList.map Char.toLower).reverse)

/-- Top-level actions of one script run that belong to the two data
paths: the CSV plotting block (app.py lines 24-57), the optional
CSV-to-.s2p conversion (lines 60-78), and the Touchstone block's
`rf.Network` parse attempt (line 84). -/
inductive PathStep where
  | csvPlot
  | csvConvert
  | touchstoneParse
deriving DecidableEq

/-- Order of the data-path actions executed for one upload, from the
statement structure of app.py lines 18-84: the CSV block runs exactly
when the lowered filename ends in `.csv`, the conversion sub-block runs
when additionally the checkbox is set, and the `try` block containing
`rf.Network(uploaded_file)` runs unconditionally afterwards (it is not
guarded by the extension check). -/
def scriptSteps (name : String) (convert : Bool) : List PathStep :=
  (if isCsv name then
      PathStep.csvPlot :: (if convert then [PathStep.csvConvert] else [])
    else []) ++ [PathStep.touchstoneParse]

/-- Error raised by NumPy integer indexing beyond an axis bound
(`s_complex[i,1]` when the magnitude matrix has fewer than two columns,
app.py lines 74-75). -/
inductive NumpyErr where
  | indexOutOfBounds
deriving DecidableEq

/-- Six fractional digits of a natural number below 10^6, most
significant first; exactly the digits printf-style `%.6f` formatting
places after the decimal point. -/
def fracDigits (k : ℕ) : String :=
  String.mk [Nat.digitChar (k / 100000 % 10), Nat.digitChar (k / 10000 % 10),
    Nat.digitChar (k / 1000 % 10), Nat.digitChar (k / 100 % 10),
    Nat.digitChar (k / 10 % 10), Nat.digitChar (k % 10)]

/-- Formatting of a rational with six digits after the decimal point, as
Python's `f"{v:.6f}"` does at app.py lines 73-76 (sign, integer part,
point, six fractional digits). -/
def format6 (q : ℚ) : String :=
  (if round (q * 1000000) < 0 then "-" else "") ++
    toString ((round (q * 1000000)).natAbs / 1000000) ++ "." ++
    fracDigits ((round (q * 1000000)).natAbs % 1000000)

/-- A string consists of an integer part, a decimal point and exactly
six fractional digits — the shape `%.6f` output always has. -/
def SixDec (s : String) : Prop :=
  ∃ intPart fracPart, s = intPart ++ "." ++ fracPart ∧
    fracPart.length = 6 ∧ ∀ c ∈ fracPart.toList, c.isDigit = true

/-- Complex S-parameter entry synthesized at app.py lines 63-64 from a
magnitude: `phases = np.zeros_like(mags)` and
`s_complex = mags * np.exp(1j*np.deg2rad(phases))`, so the factor is
`exp(0) = 1` and the entry is `(magnitude, 0)`. -/
def sComplexEntry (m : ℚ) : ℚ × ℚ := (m, 0)

/-- Frequency scaling of app.py line 65: the first CSV column is
multiplied by 1e9 (`freq_hz = df.iloc[:,0].values * 1e9`). -/
def freqHz (x : ℚ) : ℚ := x * 10 ^ 9

/-- The nine whitespace-separated fields of one synthetic .s2p row
(app.py lines 73-76): frequency written as `freq_hz[i]/1e9`, the real
and imaginary parts of the two populated S slots, each `%.6f`
formatted, and four literal `0` placeholders. -/
def rowFields (freq s0 s1 : ℚ) : List String :=
  [format6 (freqHz freq / 10 ^ 9),
   format6 (sComplexEntry s0).1, format6 (sComplexEntry s0).2,
   format6 (sComplexEntry s1).1, format6 (sComplexEntry s1).2,
   "0", "0", "0", "0"]

/-- One line of the synthetic .s2p body, exactly as the f-string at
app.py lines 73-76 concatenates it (without the terminating newline). -/
def s2pLine (freq s0 s1 : ℚ) : String :=
  format6 (freqHz freq / 10 ^ 9) ++ " " ++
    format6 (sComplexEntry s0).1 ++ " " ++ format6 (sComplexEntry s0).2 ++ " " ++
    format6 (sComplexEntry s1).1 ++ " " ++ format6 (sComplexEntry s1).2 ++
    " 0 0 0 0"

/-- Fields joined by single spaces; `joinFields [a, b, c] = a ++ " " ++ b
++ " " ++ c`. -/
def joinFields : List String → String
  | [] => ""
  | [x] => x
  | x :: y :: rest => x ++ " " ++ joinFields (y :: rest)

/-- Emission of one data row by the loop at app.py lines 71-76: the row
needs its frequency (`freq_hz[i]`) and the first two dependent values
(`s_complex[i,0]` and `s_complex[i,1]`); with fewer than two dependent
columns the NumPy index raises, and any dependent columns beyond the
second are never read. -/
def writeRow (row : List ℚ) : Except NumpyErr String :=
  match row with
  | freq :: s0 :: s1 :: _ => Except.ok (s2pLine freq s0 s1)
  | _ => Except.error NumpyErr.indexOutOfBounds

/-- Emission of all data rows in order; the first raising row aborts the
conversion (the exception propagates out of the loop). -/
def writeRows : List (List ℚ) → Except NumpyErr (List String)
  | [] => Except.ok []
  | r :: rs =>
    match writeRow r with
    | Except.error e => Except.error e
    | Except.ok line =>
      match writeRows rs with
      | Except.error e => Except.error e
      | Except.ok rest => Except.ok (line :: rest)

/-- The complete synthetic .s2p conversion of app.py lines 60-76: the
fixed header line `# GHz S RI R 50` followed by one emitted line per
dataset row. -/
def csvToS2p (df : DataFrame) : Except NumpyErr (List String) :=
  match writeRows df.rows with
  | Except.error e => Except.error e
  | Except.ok body => Except.ok ("# GHz S RI R 50" :: body)

/-- Scan underlying `argminAbs`: over the nonempty list `x :: ys` it
returns the pair of the first index attaining the minimum of `|v - t|`
and that minimal value.  The head wins ties because a later element
replaces the current best only when strictly smaller. -/
def argminAux (t x : ℚ) : List ℚ → ℕ × ℚ
  | [] => (0, |x - t|)
  | y :: ys =>
    if (argminAux t y ys).2 < |x - t| then
      ((argminAux t y ys).1 + 1, (argminAux t y ys).2)
    else (0, |x - t|)

/-- Index of the first minimum of `|v - t|` over a list, the semantics
of `np.argmin(np.abs(arr - t))` at app.py lines 96-97: NumPy's argmin
returns the lowest index attaining the minimum.  On an empty list the
value is irrelevant (NumPy raises there; the app has read `net.f[0]`
already, so the frequency list is never empty). -/
def argminAbs (t : ℚ) : List ℚ → ℕ
  | [] => 0
  | x :: ys => (argminAux t x ys).1

/-- The minimal absolute difference itself, `|xs[argmin] - t|`. -/
def argminVal (t : ℚ) (xs : List ℚ) : ℚ :=
  |xs.getD (argminAbs t xs) 0 - t|

/-- Frequency-domain network object as `skrf.Network` exposes it
(app.py lines 84-119): frequency points in Hz (`net.f`), port count
(`net.nports`), and the S tensor `net.s` of shape (F, N, N), each entry
a complex number kept as a (re, im) pair of rationals.  `np.abs` and
the optional dB map applied at lines 115-117 are elementwise on the
extracted slice and preserve its length and order, so the windowing
facts below are stated on the (re, im) slices themselves. -/
structure Network where
  f : List ℚ
  nports : ℕ
  s : List (List (List (ℚ × ℚ)))

/-- Shape invariant of an `skrf` network: at least one frequency point,
one tensor frame per frequency point, each frame an N-by-N matrix. -/
def Network.WF (net : Network) : Prop :=
  net.f ≠ [] ∧ net.s.length = net.f.length ∧
    ∀ fr ∈ net.s, fr.length = net.nports ∧ ∀ row ∈ fr, row.length = net.nports

/-- The frequency points in GHz, `net.f/1e9` of app.py lines 96-97. -/
def fGHz (net : Network) : List ℚ :=
  net.f.map (fun x => x / 10 ^ 9)

/-- Lower slice index: `idx_min = np.argmin(np.abs(net.f/1e9 - freq_min))`
(app.py line 96). -/
def idxMin (net : Network) (fmin : ℚ) : ℕ :=
  argminAbs fmin (fGHz net)

/-- Upper slice index: `idx_max = np.argmin(np.abs(net.f/1e9 - freq_max)) + 1`
(app.py line 97); the `+ 1` makes the slice include the matched point. -/
def idxMax (net : Network) (fmax : ℚ) : ℕ :=
  argminAbs fmax (fGHz net) + 1

/-- Error raised by NumPy when a basic integer index lies outside an
axis of the S tensor (`net.s[idx_min:idx_max, i, j]` with `i` or `j`
out of the port range, app.py line 115); app.py's catch-all handler at
lines 131-132 surfaces it as an error message. -/
inductive ExtractErr where
  | portIndexOutOfRange
deriving DecidableEq

/-- Resolution of a NumPy basic integer index against an axis of
extent `n`: indices in `[0, n)` are used as is, indices in `[-n, 0)`
wrap around, anything else raises. -/
def npIndex (n : ℕ) (i : ℤ) : Option ℕ :=
  if 0 ≤ i then (if i < (n : ℤ) then some i.toNat else none)
  else (if -(n : ℤ) ≤ i then some (i + (n : ℤ)).toNat else none)

/-- The windowed per-selector slice `net.s[a:b, i, j]` for resolved
zero-based axis indices `i`, `j` (app.py line 115): frames `a` to
`b - 1` of the tensor, entry `(i, j)` of each. -/
def sliceVals (net : Network) (a b i j : ℕ) : List (ℚ × ℚ) :=
  ((net.s.drop a).take (b - a)).map (fun fr => (fr.getD i []).getD j (0, 0))

/-- Extraction for one selector (app.py lines 112-115).  A selector is
the pair of 1-based port numbers parsed from the label `S{i}{j}` by
`int(param[1]) - 1` and `int(param[2]) - 1`; the tensor indexing
resolves both zero-based indices against the port axis and raises when
one lies outside it. -/
def extractSel (net : Network) (a b : ℕ) (sel : ℤ × ℤ) :
    Except ExtractErr (List (ℚ × ℚ)) :=
  match npIndex net.nports (sel.1 - 1), npIndex net.nports (sel.2 - 1) with
  | some i, some j => Except.ok (sliceVals net a b i j)
  | _, _ => Except.error ExtractErr.portIndexOutOfRange

/-- Extraction for the selected parameters in selection order, the
`for param in selected_params` loop of app.py lines 112-123; the first
raising selector aborts the whole rendering (the exception propagates
to the catch-all handler). -/
def extractAll (net : Network) (fmin fmax : ℚ) :
    List (ℤ × ℤ) → Except ExtractErr (List (List (ℚ × ℚ)))
  | [] => Except.ok []
  | sel :: rest =>
    match extractSel net (idxMin net fmin) (idxMax net fmax) sel with
    | Except.error e => Except.error e
    | Except.ok y =>
      match extractAll net fmin fmax rest with
      | Except.error e => Except.error e
      | Except.ok ys => Except.ok (y :: ys)

theorem argminAux_fst_le (t : ℚ) :
    ∀ (ys : List ℚ) (x : ℚ), (argminAux t x ys).1 ≤ ys.length := by
  intro ys
  induction ys with
  | nil => intro x; simp [argminAux]
  | cons y ys ih =>
    intro x
    by_cases h : (argminAux t y ys).2 < |x - t|
    · simp only [argminAux, if_pos h, List.length_cons]
      exact Nat.succ_le_succ (ih y)
    · simp [argminAux, if_neg h]

theorem argminAux_snd_eq (t : ℚ) :
    ∀ (ys : List ℚ) (x : ℚ),
      (argminAux t x ys).2 = |(x :: ys).getD (argminAux t x ys).1 0 - t| := by
  intro ys
  induction ys with
  | nil => intro x; simp [argminAux]
  | cons y ys ih =>
    intro x
    by_cases h : (argminAux t y ys).2 < |x - t|
    · simp only [argminAux, if_pos h]
      rw [List.getD_cons_succ]
      exact ih y
    · simp [argminAux, if_neg h]

theorem argminAux_le (t : ℚ) :
    ∀ (ys : List ℚ) (x : ℚ) (i : ℕ), i < ys.length + 1 →
      (argminAux t x ys).2 ≤ |(x :: ys).getD i 0 - t| := by
  intro ys
  induction ys with
  | nil =>
    intro x i hi
    simp only [List.length_nil] at hi
    have h0 : i = 0 := by omega
    subst h0
    simp [argminAux]
  | cons y ys ih =>
    intro x i hi
    by_cases h : (argminAux t y ys).2 < |x - t|
    · simp only [argminAux, if_pos h]
      cases i with
      | zero => rw [List.getD_cons_zero]; exact le_of_lt h
      | succ n =>
        rw [List.getD_cons_succ]
        exact ih y n (by simp only [List.length_cons] at hi; omega)
    · simp only [argminAux, if_neg h]
      cases i with
      | zero => rw [List.getD_cons_zero]
      | succ n =>
        rw [List.getD_cons_succ]
        exact le_trans (not_lt.mp h) (ih y n (by simp only [List.length_cons] at hi; omega))

theorem argminAux_first (t : ℚ) :
    ∀ (ys : List ℚ) (x : ℚ) (i : ℕ), i < (argminAux t x ys).1 →
      (argminAux t x ys).2 < |(x :: ys).getD i 0 - t| := by
  intro ys
  induction ys with
  | nil => intro x i hi; simp [argminAux] at hi
  | cons y ys ih =>
    intro x i hi
    by_cases h : (argminAux t y ys).2 < |x - t|
    · simp only [argminAux, if_pos h] at hi ⊢
      cases i with
      | zero => rw [List.getD_cons_zero]; exact h
      | succ n =>
        rw [List.getD_cons_succ]
        exact ih y n (Nat.lt_of_succ_lt_succ hi)
    · simp only [argminAux, if_neg h] at hi
      exact absurd hi (Nat.not_lt_zero i)

theorem argminAbs_lt_length (t : ℚ) (xs : List ℚ) (h : xs ≠ []) :
    argminAbs t xs < xs.length := by
  cases xs with
  | nil => exact absurd rfl h
  | cons x ys =>
    simp only [argminAbs, List.length_cons]
    exact Nat.lt_succ_of_le (argminAux_fst_le t ys x)

theorem argminVal_le (t : ℚ) (xs : List ℚ) (i : ℕ) (hi : i < xs.length) :
    argminVal t xs ≤ |xs.getD i 0 - t| := by
  cases xs with
  | nil => simp at hi
  | cons x ys =>
    have hv : argminVal t (x :: ys) = (argminAux t x ys).2 := by
      simp only [argminVal, argminAbs]
      exact (argminAux_snd_eq t ys x).symm
    rw [hv]
    exact argminAux_le t ys x i (by simpa [List.length_cons] using hi)

theorem argminVal_first (t : ℚ) (xs : List ℚ) (i : ℕ) (hi : i < argminAbs t xs) :
    argminVal t xs < |xs.getD i 0 - t| := by
  cases xs with
  | nil => simp [argminAbs] at hi
  | cons x ys =>
    have hv : argminVal t (x :: ys) = (argminAux t x ys).2 := by
      simp only [argminVal, argminAbs]
      exact (argminAux_snd_eq t ys x).symm
    rw [hv]
    exact argminAux_first t ys x i (by simpa [argminAbs] using hi)

theorem npIndex_some (n : ℕ) (i : ℤ) (h0 : 0 ≤ i) (h1 : i < (n : ℤ)) :
    npIndex n i = some i.toNat := by
  simp [npIndex, h0, h1]

theorem npIndex_none (n : ℕ) (i : ℤ) (h : (n : ℤ) ≤ i) :
    npIndex n i = none := by
  have h0 : 0 ≤ i := le_trans (Int.natCast_nonneg n) h
  simp [npIndex, h0, not_lt.mpr h]

theorem extractSel_ok (net : Network) (a b : ℕ) (sel : ℤ × ℤ)
    (h1 : 1 ≤ sel.1) (h2 : sel.1 ≤ (net.nports : ℤ))
    (h3 : 1 ≤ sel.2) (h4 : sel.2 ≤ (net.nports : ℤ)) :
    extractSel net a b sel =
      Except.ok (sliceVals net a b (sel.1 - 1).toNat (sel.2 - 1).toNat) := by
  rw [extractSel, npIndex_some net.nports (sel.1 - 1) (by omega) (by omega),
    npIndex_some net.nports (sel.2 - 1) (by omega) (by omega)]

theorem extractSel_err (net : Network) (a b : ℕ) (sel : ℤ × ℤ)
    (h : (net.nports : ℤ) ≤ sel.1 - 1 ∨ (net.nports : ℤ) ≤ sel.2 - 1) :
    extractSel net a b sel = Except.error ExtractErr.portIndexOutOfRange := by
  rcases h with h | h
  · rw [extractSel, npIndex_none net.nports (sel.1 - 1) h]
  · rw [extractSel, npIndex_none net.nports (sel.2 - 1) h]
    cases npIndex net.nports (sel.1 - 1) <;> rfl

theorem sliceVals_length (net : Network) (a b i j : ℕ) (hb : b ≤ net.s.length) :
    (sliceVals net a b i j).length = b - a := by
  simp only [sliceVals, List.length_map, List.length_take, List.length_drop]
  omega

theorem fGHz_length (net : Network) : (fGHz net).length = net.f.length := by
  simp [fGHz]

theorem idxMax_le (net : Network) (fmax : ℚ) (h : net.f ≠ []) :
    idxMax net fmax ≤ net.f.length := by
  have hne : fGHz net ≠ [] := by
    simpa [fGHz] using h
  have := argminAbs_lt_length fmax (fGHz net) hne
  rw [fGHz_length] at this
  simp only [idxMax]
  omega

theorem idxMin_lt (net : Network) (fmin : ℚ) (h : net.f ≠ []) :
    idxMin net fmin < net.f.length := by
  have hne : fGHz net ≠ [] := by
    simpa [fGHz] using h
  have := argminAbs_lt_length fmin (fGHz net) hne
  rw [fGHz_length] at this
  simpa [idxMin] using this

theorem extractAll_ok (net : Network) (fmin fmax : ℚ) :
    ∀ sels : List (ℤ × ℤ),
      (∀ s ∈ sels, 1 ≤ s.1 ∧ s.1 ≤ (net.nports : ℤ) ∧
        1 ≤ s.2 ∧ s.2 ≤ (net.nports : ℤ)) →
      extractAll net fmin fmax sels =
        Except.ok (sels.map (fun s =>
          sliceVals net (idxMin net fmin) (idxMax net fmax)
            (s.1 - 1).toNat (s.2 - 1).toNat)) := by
  intro sels
  induction sels with
  | nil => intro _; rfl
  | cons s rest ih =>
    intro h
    have hs := h s (List.mem_cons_self s rest)
    rw [extractAll,
      extractSel_ok net _ _ s hs.1 hs.2.1 hs.2.2.1 hs.2.2.2,
      ih (fun a ha => h a (List.mem_cons_of_mem s ha))]
    rfl

theorem digitChar_isDigit : ∀ d : ℕ, d < 10 → (Nat.digitChar d).isDigit = true := by
  decide

theorem fracDigits_length (k : ℕ) : (fracDigits k).length = 6 := rfl

theorem fracDigits_digits (k : ℕ) :
    ∀ c ∈ (fracDigits k).toList, c.isDigit = true := by
  intro c hc
  have hlt : ∀ m : ℕ, m % 10 < 10 := fun m => Nat.mod_lt _ (by norm_num)
  simp only [fracDigits, String.toList, List.mem_cons, List.not_mem_nil, or_false] at hc
  rcases hc with h | h | h | h | h | h <;> subst h <;>
    exact digitChar_isDigit _ (hlt _)

theorem sixDec_format6 (q : ℚ) : SixDec (format6 q) := by
  refine ⟨(if round (q * 1000000) < 0 then "-" else "") ++
      toString ((round (q * 1000000)).natAbs / 1000000),
    fracDigits ((round (q * 1000000)).natAbs % 1000000), ?_, ?_, ?_⟩
  · simp [format6, String.append_assoc]
  · exact fracDigits_length _
  · exact fracDigits_digits _

theorem not_sixDec_zero : ¬ SixDec "0" := by
  rintro ⟨a, b, habs, hlen, -⟩
  have h1 : ("0" : String).length = 1 := rfl
  rw [habs] at h1
  rw [String.length_append, String.length_append] at h1
  have hdot : ("." : String).length = 1 := rfl
  omega

theorem writeRow_of_len (r : List ℚ) (h : 3 ≤ r.length) :
    writeRow r = Except.ok (s2pLine (r.getD 0 0) (r.getD 1 0) (r.getD 2 0)) := by
  cases r with
  | nil => simp at h
  | cons f r1 =>
    cases r1 with
    | nil => simp at h
    | cons a r2 =>
      cases r2 with
      | nil => simp at h
      | cons b rest =>
        simp [writeRow, List.getD_cons_zero, List.getD_cons_succ]

theorem writeRows_ok (rows : List (List ℚ)) (h : ∀ r ∈ rows, 3 ≤ r.length) :
    writeRows rows = Except.ok (rows.map (fun r =>
      s2pLine (r.getD 0 0) (r.getD 1 0) (r.getD 2 0))) := by
  induction rows with
  | nil => rfl
  | cons r rest ih =>
    rw [writeRows, writeRow_of_len r (h r (List.mem_cons_self r rest)),
      ih (fun a ha => h a (List.mem_cons_of_mem r ha))]
    rfl

theorem writeRows_err_head (r : List ℚ) (rest : List (List ℚ)) (h : r.length < 3) :
    writeRows (r :: rest) = Except.error NumpyErr.indexOutOfBounds := by
  have hr : writeRow r = Except.error NumpyErr.indexOutOfBounds := by
    cases r with
    | nil => rfl
    | cons f r1 =>
      cases r1 with
      | nil => rfl
      | cons a r2 =>
        cases r2 with
        | nil => rfl
        | cons b r3 => simp only [List.length_cons] at h; omega
  rw [writeRows, hr]

theorem s2pLine_eq_joinFields (f a b : ℚ) :
    s2pLine f a b = joinFields (rowFields f a b) := by
  have hlit : (" 0 0 0 0" : String) =
      " " ++ ("0" ++ (" " ++ ("0" ++ (" " ++ ("0" ++ (" " ++ "0")))))) := by decide
  simp [s2pLine, rowFields, joinFields, hlit, String.append_assoc]

/-- Evaluation of the six-decimal formatting at 1. -/
theorem format6_one : format6 (1 : ℚ) = "1.000000" := by
  have h : round ((1 : ℚ) * 1000000) = 1000000 := by norm_num [round_eq]
  simp only [format6, h]
  decide

/-- Evaluation of the six-decimal formatting at 1/2. -/
theorem format6_half : format6 (1/2 : ℚ) = "0.500000" := by
  have h : round ((1/2 : ℚ) * 1000000) = 500000 := by norm_num [round_eq]
  simp only [format6, h]
  decide

/-- Evaluation of the six-decimal formatting at 0 (the value every
imaginary slot carries). -/
theorem format6_zero : format6 (0 : ℚ) = "0.000000" := by
  have h : round ((0 : ℚ) * 1000000) = 0 := by norm_num [round_eq]
  simp only [format6, h]
  decide

/-- Evaluation of the six-decimal formatting at 1/4. -/
theorem format6_quarter : format6 (1/4 : ℚ) = "0.250000" := by
  have h : round ((1/4 : ℚ) * 1000000) = 250000 := by norm_num [round_eq]
  simp only [format6, h]
  decide

/-- The emitted synthetic line for the row (1 GHz, 0.5, 0.25), byte for
byte. -/
theorem s2pLine_example_row : s2pLine 1 (1/2) (1/4) =
    "1.000000 0.500000 0.000000 0.250000 0.000000 0 0 0 0" := by
  have e1 : freqHz 1 / 10 ^ 9 = (1 : ℚ) := by norm_num [freqHz]
  simp only [s2pLine, sComplexEntry, e1, format6_one, format6_half, format6_zero,
    format6_quarter]
  decide

/-- Conversion fails with the NumPy index error whenever the first
dataset row has fewer than three entries (frequency plus two dependent
values), since the loop body reads `s_complex[i,0]` and
`s_complex[i,1]`. -/
theorem csvToS2p_err_of_short (df : DataFrame)
    (hshort : ∀ r ∈ df.rows, r.length < 3) (hne : df.rows ≠ []) :
    csvToS2p df = Except.error NumpyErr.indexOutOfBounds := by
  cases hdf : df.rows with
  | nil => exact absurd hdf hne
  | cons r rest =>
    have hr : r.length < 3 := by
      refine hshort r ?_
      rw [hdf]
      exact List.mem_cons_self r rest
    rw [csvToS2p, hdf, writeRows_err_head r rest hr]

/-- Example dataset of the spec's concrete scenario: `freq_ghz=[1,2,3]`,
`S11=[0.5,0.25,0.1]`. -/
def exCsv : DataFrame := ⟨["freq_ghz", "S11"], [[1, 1/2], [2, 1/4], [3, 1/10]]⟩

/-- Two-port example network: frequency points 1, 2, 3 GHz (stored in
Hz as `skrf` exposes them), S entries chosen pairwise distinct so every
slice is recognizable. -/
def netW : Network :=
  ⟨[1000000000, 2000000000, 3000000000], 2,
   [[[(11, 0), (12, 0)], [(21, 0), (22, 0)]],
    [[(110, 0), (120, 0)], [(210, 0), (220, 0)]],
    [[(1100, 0), (1200, 0)], [(2100, 0), (2200, 0)]]]⟩

/-- The example network satisfies the skrf shape invariant. -/
theorem netW_wf : netW.WF := by
  refine ⟨by simp [netW], rfl, ?_⟩
  intro fr hfr
  simp only [netW, List.mem_cons, List.not_mem_nil, or_false] at hfr
  rcases hfr with h | h | h <;> subst h <;>
    refine ⟨rfl, ?_⟩ <;>
    · intro row hrow
      simp only [List.mem_cons, List.not_mem_nil, or_false] at hrow
      rcases hrow with h2 | h2 <;> subst h2 <;> rfl

/-- The example network's frequency axis in GHz. -/
theorem netW_fGHz : fGHz netW = [1, 2, 3] := by
  norm_num [fGHz, netW]

/-- Nearest index to 1 GHz on the example axis. -/
theorem argminAbs_netW_one : argminAbs 1 (fGHz netW) = 0 := by
  rw [netW_fGHz]
  norm_num [argminAbs, argminAux, abs_of_nonneg, abs_of_nonpos]

/-- Nearest index to 3 GHz on the example axis. -/
theorem argminAbs_netW_three : argminAbs 3 (fGHz netW) = 2 := by
  rw [netW_fGHz]
  norm_num [argminAbs, argminAux, abs_of_nonneg, abs_of_nonpos]

/-- Nearest index to 10 GHz (beyond the axis): it clamps to the last
point. -/
theorem argminAbs_netW_ten : argminAbs 10 (fGHz netW) = 2 := by
  rw [netW_fGHz]
  norm_num [argminAbs, argminAux, abs_of_nonneg, abs_of_nonpos]

/-- Nearest index to 11 GHz (beyond the axis): it clamps to the last
point. -/
theorem argminAbs_netW_eleven : argminAbs 11 (fGHz netW) = 2 := by
  rw [netW_fGHz]
  norm_num [argminAbs, argminAux, abs_of_nonneg, abs_of_nonpos]

/-- Nearest index to 2.4 GHz on the example axis. -/
theorem argminAbs_netW_lowmid : argminAbs (12/5) (fGHz netW) = 1 := by
  rw [netW_fGHz]
  norm_num [argminAbs, argminAux, abs_of_nonneg, abs_of_nonpos]

/-- Nearest index to 2.1 GHz on the example axis. -/
theorem argminMid : argminAbs (21/10) (fGHz netW) = 1 := by
  rw [netW_fGHz]
  norm_num [argminAbs, argminAux, abs_of_nonneg, abs_of_nonpos]

/-- C1: code bug.  On the CSV path with Scale dB selected, the chart
handed to the renderer plots the RAW column values (the transformed
`plot_df` of app.py line 45 is never passed to `px.line`, which receives
`df` at line 47), while its y-axis is labelled `|S| (dB)`.  On the
spec's own scenario (S11 = [0.5, 0.25, 0.1]) the plotted head value is
the positive 0.5, whereas the claimed transform `20*log10(0.5)` is
negative, so the plotted values are not the dB transform. -/
theorem c1_csv_db_plots_raw_values :
    csvChart exCsv Scale.dB ["S11"] =
      ([("S11", [1/2, 1/4, 1/10])], "|S| (dB)") ∧
    20 * Real.logb 10 |(1/2 : ℝ)| < 0 ∧ (0 : ℝ) < 1/2 := by
  refine ⟨?_, ?_, by norm_num⟩
  · have hidx : List.indexOf "S11" ["freq_ghz", "S11"] = 1 := by decide
    simp [csvChart, exCsv, DataFrame.colVals, csvYAxisLabel, hidx]
  · have habs : |(1/2 : ℝ)| = 1/2 := abs_of_pos (by norm_num)
    have hlog : Real.logb 10 (1/2 : ℝ) < 0 :=
      Real.logb_neg (by norm_num) (by norm_num) (by norm_num)
    rw [habs]
    nlinarith

/-- C2 counterexample: for the upload name `antenna.csv` with the
conversion checkbox off, BOTH the CSV plotting block and the Touchstone
parse attempt execute in one run, so the claim that exactly one of the
two data paths runs (and the other is not executed) is false. -/
theorem c2_cex_both_paths_for_csv :
    PathStep.csvPlot ∈ scriptSteps "antenna.csv" false ∧
    PathStep.touchstoneParse ∈ scriptSteps "antenna.csv" false := by
  have h : isCsv "antenna.csv" = true := by decide
  simp [scriptSteps, h]

/-- C2 amended: the Touchstone parse attempt executes on every run; the
CSV block executes exactly when the lowered filename ends in `.csv`;
hence only a non-CSV upload runs exactly one path, and its run consists
of the Touchstone attempt alone. -/
theorem c2_touchstone_always_runs (name : String) (convert : Bool) :
    PathStep.touchstoneParse ∈ scriptSteps name convert ∧
    (PathStep.csvPlot ∈ scriptSteps name convert ↔ isCsv name = true) ∧
    (isCsv name = false → scriptSteps name convert = [PathStep.touchstoneParse]) := by
  cases h : isCsv name <;> cases hc : convert <;> simp [scriptSteps, h]

/-- C2 witness: the amended claim at the non-CSV upload `chip.s2p`. -/
theorem c2_touchstone_always_runs_witness :
    PathStep.touchstoneParse ∈ scriptSteps "chip.s2p" false ∧
    scriptSteps "chip.s2p" false = [PathStep.touchstoneParse] := by
  have h := c2_touchstone_always_runs "chip.s2p" false
  exact ⟨h.1, h.2.2 (by decide)⟩

/-- C3 counterexample: converting the dataset (1 GHz, 0.5, 0.25) emits
the expected header and one row of nine fields, but the sixth field is
the literal `0`, which is NOT formatted to six decimal places — the
four zero placeholders are written bare, so the claim that every
numeric field carries six decimals is false. -/
theorem c3_cex_placeholder_not_six_decimals :
    csvToS2p ⟨["freq_ghz", "S11", "S21"], [[1, 1/2, 1/4]]⟩ =
      Except.ok ["# GHz S RI R 50",
        "1.000000 0.500000 0.000000 0.250000 0.000000 0 0 0 0"] ∧
    (rowFields 1 (1/2) (1/4)).getD 5 "" = "0" ∧ ¬ SixDec "0" := by
  refine ⟨?_, rfl, not_sixDec_zero⟩
  simp only [csvToS2p, writeRows, writeRow, s2pLine_example_row]

/-- C3 amended: for every dataset with at least one row and at least
two dependent columns, the synthetic file is the exact header
`# GHz S RI R 50` followed by one line per row; each line consists of
nine space-separated fields of which the first five (frequency and the
four populated real/imaginary values) are formatted to six decimal
places while the remaining four placeholders are the bare literal `0`
(not `0.000000`). -/
theorem c3_s2p_format (df : DataFrame) (hne : df.rows ≠ [])
    (hlen : ∀ r ∈ df.rows, 3 ≤ r.length) :
    csvToS2p df = Except.ok ("# GHz S RI R 50" ::
      df.rows.map (fun r => s2pLine (r.getD 0 0) (r.getD 1 0) (r.getD 2 0))) ∧
    ∀ f s0 s1 : ℚ,
      s2pLine f s0 s1 = joinFields (rowFields f s0 s1) ∧
      (rowFields f s0 s1).length = 9 ∧
      (∀ fld ∈ (rowFields f s0 s1).take 5, SixDec fld) ∧
      (∀ fld ∈ (rowFields f s0 s1).drop 5, fld = "0") := by
  refine ⟨?_, ?_⟩
  · rw [csvToS2p, writeRows_ok df.rows hlen]
  · intro f s0 s1
    refine ⟨s2pLine_eq_joinFields f s0 s1, rfl, ?_, ?_⟩
    · intro fld hfld
      simp only [rowFields, List.take_succ_cons, List.take_zero, List.mem_cons,
        List.not_mem_nil, or_false] at hfld
      rcases hfld with rfl | rfl | rfl | rfl | rfl <;> exact sixDec_format6 _
    · intro fld hfld
      simp only [rowFields, List.drop_succ_cons, List.drop_zero, List.mem_cons,
        List.not_mem_nil, or_false] at hfld
      rcases hfld with rfl | rfl | rfl | rfl <;> rfl

/-- C3 witness: the amended claim at a one-row three-column dataset. -/
theorem c3_s2p_format_witness :
    csvToS2p ⟨["f", "a", "b"], [[2, 3, 5]]⟩ =
      Except.ok ("# GHz S RI R 50" ::
        ([[2, 3, 5]] : List (List ℚ)).map (fun r =>
          s2pLine (r.getD 0 0) (r.getD 1 0) (r.getD 2 0))) ∧
    (rowFields 2 3 5).length = 9 :=
  ⟨(c3_s2p_format ⟨["f", "a", "b"], [[2, 3, 5]]⟩ (by simp)
      (by intro r hr; simp only [List.mem_singleton] at hr; subst hr; simp)).1,
   ((c3_s2p_format ⟨["f", "a", "b"], [[2, 3, 5]]⟩ (by simp)
      (by intro r hr; simp only [List.mem_singleton] at hr; subst hr; simp)).2
      2 3 5).2.1⟩

/-- C4: for every well-formed network and selection of in-range
selectors, the extractor resolves each window endpoint to the frequency
index of minimum absolute difference against the GHz axis (strictly
smaller than every earlier index, i.e. lowest index on ties), the upper
index includes the matched endpoint (`argmin + 1`), extraction succeeds
returning one slice per selector in selection order, and every slice
has length equal to the resolved window's point count
`idxMax - idxMin`. -/
theorem c4_extractor_window_alignment (net : Network) (fmin fmax : ℚ)
    (sels : List (ℤ × ℤ)) (hwf : net.WF)
    (hsels : ∀ s ∈ sels, 1 ≤ s.1 ∧ s.1 ≤ (net.nports : ℤ) ∧
      1 ≤ s.2 ∧ s.2 ≤ (net.nports : ℤ)) :
    idxMin net fmin < (fGHz net).length ∧
    (∀ k, k < (fGHz net).length →
      argminVal fmin (fGHz net) ≤ |(fGHz net).getD k 0 - fmin| ∧
      argminVal fmax (fGHz net) ≤ |(fGHz net).getD k 0 - fmax|) ∧
    (∀ k, k < idxMin net fmin →
      argminVal fmin (fGHz net) < |(fGHz net).getD k 0 - fmin|) ∧
    (∀ k, k < argminAbs fmax (fGHz net) →
      argminVal fmax (fGHz net) < |(fGHz net).getD k 0 - fmax|) ∧
    idxMax net fmax = argminAbs fmax (fGHz net) + 1 ∧
    extractAll net fmin fmax sels = Except.ok (sels.map (fun s =>
      sliceVals net (idxMin net fmin) (idxMax net fmax)
        (s.1 - 1).toNat (s.2 - 1).toNat)) ∧
    ∀ s ∈ sels,
      (sliceVals net (idxMin net fmin) (idxMax net fmax)
        (s.1 - 1).toNat (s.2 - 1).toNat).length =
      idxMax net fmax - idxMin net fmin := by
  have hfne : fGHz net ≠ [] := by
    simp only [fGHz, ne_eq, List.map_eq_nil_iff]
    exact hwf.1
  refine ⟨argminAbs_lt_length fmin (fGHz net) hfne, ?_, ?_, ?_, rfl,
    extractAll_ok net fmin fmax sels hsels, ?_⟩
  · intro k hk
    exact ⟨argminVal_le fmin (fGHz net) k hk, argminVal_le fmax (fGHz net) k hk⟩
  · intro k hk
    exact argminVal_first fmin (fGHz net) k hk
  · intro k hk
    exact argminVal_first fmax (fGHz net) k hk
  · intro s hs
    refine sliceVals_length net _ _ _ _ ?_
    rw [hwf.2.1]
    exact idxMax_le net fmax hwf.1

/-- C4 witness: extraction over the full window of the example network
for the selectors S21 then S11, in that order. -/
theorem c4_extractor_window_alignment_witness :
    extractAll netW 1 3 [(2, 1), (1, 1)] =
      Except.ok [sliceVals netW (idxMin netW 1) (idxMax netW 3) 1 0,
        sliceVals netW (idxMin netW 1) (idxMax netW 3) 0 0] ∧
    (sliceVals netW (idxMin netW 1) (idxMax netW 3) 1 0).length =
      idxMax netW 3 - idxMin netW 1 := by
  have h := c4_extractor_window_alignment netW 1 3 [(2, 1), (1, 1)] netW_wf
    (by intro s hs
        simp only [List.mem_cons, List.not_mem_nil, or_false] at hs
        rcases hs with rfl | rfl <;> norm_num [netW])
  constructor
  · have h6 := h.2.2.2.2.2.1
    simpa using h6
  · have h7 := h.2.2.2.2.2.2 (2, 1) (by simp)
    simpa using h7

/-- C5 counterexample: a one-column dataset does not fail at all; the
column split succeeds with an empty label list (the caller then shows
an empty multiselect and renders no chart), contradicting the claimed
`MalformedInputError` for fewer than two columns. -/
theorem c5_cex_one_column_no_error :
    interpretColumns ["freq"] = Except.ok ("freq", []) := rfl

/-- C5 amended: with zero columns the split raises (the pandas
`IndexError` from `df.columns[0]`, not a dedicated error type); with
one or more columns it succeeds, designating the head column as the
x-axis and returning the remaining k-1 labels in file order — in
particular a one-column dataset yields zero labels instead of
failing. -/
theorem c5_column_split :
    interpretColumns [] = Except.error PandasErr.indexError ∧
    ∀ (x : String) (rest : List String),
      interpretColumns (x :: rest) = Except.ok (x, rest) ∧
      rest.length = (x :: rest).length - 1 := by
  refine ⟨rfl, ?_⟩
  intro x rest
  exact ⟨rfl, by simp⟩

/-- C6 counterexample: a dataset with zero dependent columns and zero
rows converts successfully into a header-only synthetic file — no
failure of any kind is raised, contradicting the claimed unconditional
`InsufficientDataError`. -/
theorem c6_cex_no_error_on_empty_rows :
    csvToS2p ⟨["f"], []⟩ = Except.ok ["# GHz S RI R 50"] := rfl

/-- C6 amended: with zero dependent columns AND at least one data row
the conversion fails — with the generic NumPy out-of-bounds index error
raised while reading the missing `s_complex[i,0]`, there being no
dedicated `InsufficientDataError` — and dependent columns beyond the
second are silently dropped: a row's emitted line depends only on its
first three entries. -/
theorem c6_zero_dep_columns :
    (∀ df : DataFrame, df.cols.length = 1 →
      (∀ r ∈ df.rows, r.length = df.cols.length) → df.rows ≠ [] →
      csvToS2p df = Except.error NumpyErr.indexOutOfBounds) ∧
    (∀ (f s0 s1 : ℚ) (rest : List ℚ),
      writeRow (f :: s0 :: s1 :: rest) = Except.ok (s2pLine f s0 s1)) := by
  constructor
  · intro df hcols hconf hne
    refine csvToS2p_err_of_short df ?_ hne
    intro r hr
    have := hconf r hr
    omega
  · intro f s0 s1 rest
    rfl

/-- C6 witness: the amended claim at a one-column one-row dataset and
at a row carrying two extra dependent values. -/
theorem c6_zero_dep_columns_witness :
    csvToS2p ⟨["f"], [[1]]⟩ = Except.error NumpyErr.indexOutOfBounds ∧
    writeRow [(5 : ℚ), 1, 2, 3, 4] = Except.ok (s2pLine 5 1 2) := by
  refine ⟨c6_zero_dep_columns.1 ⟨["f"], [[1]]⟩ rfl ?_ (by simp),
    c6_zero_dep_columns.2 5 1 2 [3, 4]⟩
  intro r hr
  simp only [List.mem_singleton] at hr
  subst hr
  rfl

/-- C7: indexing the S tensor for a selector whose (1-based) output or
input port number exceeds the port count — zero-based index at least
`nports`, e.g. S51 on a 2-port network — fails with the port-index
error that the catch-all handler surfaces. -/
theorem c7_port_index_out_of_range (net : Network) (a b : ℕ) (sel : ℤ × ℤ)
    (h : (net.nports : ℤ) ≤ sel.1 - 1 ∨ (net.nports : ℤ) ≤ sel.2 - 1) :
    extractSel net a b sel = Except.error ExtractErr.portIndexOutOfRange :=
  extractSel_err net a b sel h

/-- C7 witness: selector S51 on the 2-port example network. -/
theorem c7_port_index_out_of_range_witness :
    extractSel netW 0 3 (5, 1) = Except.error ExtractErr.portIndexOutOfRange :=
  c7_port_index_out_of_range netW 0 3 (5, 1) (Or.inl (by norm_num [netW]))

/-- C8 counterexample: a window entirely above the file's frequency
range (10 to 11 GHz on the 1-3 GHz example network) clamps to the last
frequency point and yields a length-one slice, and an inverted window
(freq_min 2.4 larger than freq_max 2.1) also yields a length-one slice;
neither yields the claimed empty result set. -/
theorem c8_cex_window_clamps_nonempty :
    extractAll netW 10 11 [(1, 1)] = Except.ok [[(1100, 0)]] ∧
    extractAll netW (12/5) (21/10) [(1, 1)] = Except.ok [[(110, 0)]] := by
  constructor
  · have h := extractAll_ok netW 10 11 [(1, 1)]
      (by intro s hs; simp only [List.mem_singleton] at hs; subst hs; norm_num [netW])
    rw [h]
    have e1 : idxMin netW 10 = 2 := by rw [idxMin, argminAbs_netW_ten]
    have e2 : idxMax netW 11 = 3 := by rw [idxMax, argminAbs_netW_eleven]
    simp only [List.map_cons, List.map_nil, e1, e2]
    norm_num [sliceVals, netW]
  · have h := extractAll_ok netW (12/5) (21/10) [(1, 1)]
      (by intro s hs; simp only [List.mem_singleton] at hs; subst hs; norm_num [netW])
    rw [h]
    have e1 : idxMin netW (12/5) = 1 := by rw [idxMin, argminAbs_netW_lowmid]
    have e2 : idxMax netW (21/10) = 2 := by rw [idxMax, argminMid]
    simp only [List.map_cons, List.map_nil, e1, e2]
    norm_num [sliceVals, netW]

/-- C8 amended: for any window whatsoever — inverted or outside the
file range included — extraction never raises for an in-range selector;
it returns the slice `[idxMin, idxMax)`, whose length is the truncated
difference `idxMax - idxMin`: zero exactly when the resolved lower
index is at least the resolved upper index, while a window beyond the
range clamps to the nearest boundary point and so yields a non-empty
slice. -/
theorem c8_window_slice_no_error (net : Network) (fmin fmax : ℚ)
    (sel : ℤ × ℤ) (hwf : net.WF)
    (h1 : 1 ≤ sel.1) (h2 : sel.1 ≤ (net.nports : ℤ))
    (h3 : 1 ≤ sel.2) (h4 : sel.2 ≤ (net.nports : ℤ)) :
    extractSel net (idxMin net fmin) (idxMax net fmax) sel =
      Except.ok (sliceVals net (idxMin net fmin) (idxMax net fmax)
        (sel.1 - 1).toNat (sel.2 - 1).toNat) ∧
    (sliceVals net (idxMin net fmin) (idxMax net fmax)
      (sel.1 - 1).toNat (sel.2 - 1).toNat).length =
      idxMax net fmax - idxMin net fmin := by
  refine ⟨extractSel_ok net _ _ sel h1 h2 h3 h4, ?_⟩
  refine sliceVals_length net _ _ _ _ ?_
  rw [hwf.2.1]
  exact idxMax_le net fmax hwf.1

/-- C8 witness: the amended claim at the fully inverted window (3 GHz
down to 1 GHz) on the example network, where the slice is empty but no
error is raised. -/
theorem c8_window_slice_no_error_witness :
    extractSel netW (idxMin netW 3) (idxMax netW 1) (1, 1) =
      Except.ok (sliceVals netW (idxMin netW 3) (idxMax netW 1) 0 0) ∧
    (sliceVals netW (idxMin netW 3) (idxMax netW 1) 0 0).length = 0 := by
  have h := c8_window_slice_no_error netW 3 1 (1, 1) netW_wf (by norm_num)
    (by norm_num [netW]) (by norm_num) (by norm_num [netW])
  have e1 : idxMin netW 3 = 2 := by rw [idxMin, argminAbs_netW_three]
  have e2 : idxMax netW 1 = 1 := by rw [idxMax, argminAbs_netW_one]
  refine ⟨by simpa using h.1, ?_⟩
  have h2 := h.2
  norm_num at h2
  rw [h2, e1, e2]

/-- C9: the frequency written into the synthetic file equals the row's
column-0 value — multiplying by 1e9 and dividing back by 1e9 at write
time cancels exactly, and the frequency field of the emitted row is the
formatting of the original value. -/
theorem c9_freq_roundtrip (x s0 s1 : ℚ) :
    freqHz x / 10 ^ 9 = x ∧ (rowFields x s0 s1).getD 0 "" = format6 x := by
  have h : freqHz x / 10 ^ 9 = x := by
    rw [freqHz]
    field_simp
  exact ⟨h, by simp [rowFields, h]⟩

/-- C10 counterexample: a dataset with exactly one dependent column but
zero rows converts successfully into a header-only file; no
out-of-bounds error is raised because the row loop never executes. -/
theorem c10_cex_no_error_on_empty_rows :
    csvToS2p ⟨["f", "mag"], []⟩ = Except.ok ["# GHz S RI R 50"] := rfl

/-- C10 amended: with exactly one dependent column and at least one
data row, the conversion fails with the NumPy out-of-bounds index error
(raised at `s_complex[i,1]`, the second S slot) instead of producing a
file with only the S11 slot populated. -/
theorem c10_one_dep_column (df : DataFrame) (hcols : df.cols.length = 2)
    (hconf : ∀ r ∈ df.rows, r.length = df.cols.length) (hne : df.rows ≠ []) :
    csvToS2p df = Except.error NumpyErr.indexOutOfBounds := by
  refine csvToS2p_err_of_short df ?_ hne
  intro r hr
  have := hconf r hr
  omega

/-- C10 witness: the amended claim at a two-column one-row dataset. -/
theorem c10_one_dep_column_witness :
    csvToS2p ⟨["f", "mag"], [[1, 1/2]]⟩ =
      Except.error NumpyErr.indexOutOfBounds := by
  refine c10_one_dep_column ⟨["f", "mag"], [[1, 1/2]]⟩ rfl ?_ (by simp)
  intro r hr
  simp only [List.mem_singleton] at hr
  subst hr
  rfl

end AntennaApp
